import Mathlib

/-!
Verification of the shape-to-solid pipeline specification against its code.

The repository consists of `main.py` (one LLM agent, one task, one crew,
executed sequentially) and `connection_test.py` (a connectivity check).
Pure configuration values are embedded directly from the source; behaviour
that the source delegates to external collaborators (the crewai sequential
execution engine, the spec's Config Loader and Shell Tool, which have no
code under the repository) is modelled from the specification text and
marked as such in the doc comment of each definition.

Environment access (`os.getenv`) is modelled by passing an explicit
environment `Env : String -> Option String`; module-level values such as
`llm_architect` become functions of that environment.
-/

/-- An environment: a partial map from variable names to values,
modelling `os.getenv`. -/
abbrev Env := String → Option String

/-- The opening-brace character, written via its code point. -/
def lbrace : Char := Char.ofNat 123

/-- The closing-brace character, written via its code point. -/
def rbrace : Char := Char.ofNat 125

/-- Substring test on character lists: `pat` occurs somewhere in the list. -/
def hasSubstring (pat : List Char) : List Char → Bool
  | [] => pat.isEmpty
  | c :: cs => pat.isPrefixOf (c :: cs) || hasSubstring pat cs

/-- Substring test on strings. -/
def strContains (s pat : String) : Bool := hasSubstring pat.data s.data

/-- An LLM endpoint configuration, with the fields `main.py` passes to the
crewai `LLM` constructor. -/
structure LLM where
  model : String
  api_key : Option String
  base_url : String
  temperature : Nat
  max_tokens : Nat

/-- A stdio MCP tool server, with the fields `main.py` passes to
`MCPServerStdio`. -/
structure MCPServerStdio where
  command : String
  args : List String

/-- An agent, with the fields `main.py` passes to the crewai `Agent`
constructor. -/
structure Agent where
  role : String
  goal : String
  backstory : String
  mcps : List MCPServerStdio
  llm : LLM
  verbose : Bool
  allow_delegation : Bool

/-- A task, with the fields `main.py` passes to the crewai `Task`
constructor (named `CrewTask` because `Task` is taken in Lean).
`depends_on` holds the positions of the earlier tasks whose outputs the
task consumes; the source passes no `context` argument, so it defaults to
the empty list. -/
structure CrewTask where
  description : String
  expected_output : String
  agent : Agent
  output_file : Option String
  depends_on : List Nat := []

/-- The crewai process discipline; the source only ever uses
`Process.sequential`. -/
inductive Process where
  | sequential

/-- A crew, with the fields `main.py` passes to the crewai `Crew`
constructor. -/
structure Crew where
  agents : List Agent
  tasks : List CrewTask
  process : Process
  verbose : Bool

/-- `main.py` lines 10-17: the architect LLM. The source's read of
`MODEL_NAME_ARCHITECT` is commented out and `model="gpt-4o"` is passed
instead; the api key comes from the environment. -/
def llm_architect (env : Env) : LLM :=
  { model := "gpt-4o"
    api_key := env "GITHUB_COPILOT_TOKEN"
    base_url := "https://models.github.ai/inference"
    temperature := 1
    max_tokens := 8000 }

/-- `main.py` lines 23-32: the filesystem MCP server, with the two
repository paths taken from the environment (default `./blueprints`) and
`./blueprints` always appended. -/
def file_mcp (env : Env) : MCPServerStdio :=
  { command := "npx"
    args :=
      [ "-y",
        "@modelcontextprotocol/server-filesystem",
        (env "REPO_SHAPES_PATH").getD "./blueprints",
        (env "REPO_OBJECT_PATH").getD "./blueprints",
        "./blueprints" ] }

/-- `main.py` line 36: the architect role string. -/
def architect_role : String := "Senior SHACL-to-TypeScript System Architect"

/-- `main.py` lines 37-43: the architect goal string. -/
def architect_goal : String :=
  "Read and deeply analyze the blueprints/rules.md file and all referenced example files " ++
  "(SHACL shapes and corresponding TypeScript Solid Object implementations). " ++
  "Produce a comprehensive, self-contained guidance document (agent_work/architect.md) " ++
  "that serves as the sole source of truth for the Developer Agent to implement " ++
  "SHACL Shape to TypeScript Solid Object conversions."

/-- `main.py` lines 44-66: the architect backstory string. -/
def architect_backstory : String :=
  "You are a world-class expert in Semantic Web technologies, RDF, SHACL (Shapes Constraint Language), \n" ++
  "and TypeScript development. With over 15 years of experience bridging ontology design and practical software engineering, \n" ++
  "you have developed and contributed to multiple open-source RDF libraries including RDF/JS Wrapper.\n" ++
  "\n" ++
  "Your expertise includes:\n" ++
  "- Deep understanding of SHACL specifications (sh:NodeShape, sh:PropertyShape, cardinalities, datatypes)\n" ++
  "- Expert knowledge of RDF concepts (Turtle syntax, URIs, prefixes, literals, blank nodes)\n" ++
  "- Mastery of TypeScript patterns including class inheritance, generics, and type safety\n" ++
  "- Extensive experience with the RDF/JS Wrapper library (TermWrapper, DatasetWrapper, ValueMapping, ObjectMapping)\n" ++
  "\n" ++
  "Your approach is methodical and documentation-driven. You believe that clear, detailed specifications \n" ++
  "prevent implementation errors and reduce back-and-forth between team members. When analyzing examples, \n" ++
  "you identify patterns, edge cases, and best practices that must be documented for developers.\n" ++
  "\n" ++
  "You are meticulous about:\n" ++
  "- Mapping SHACL constraints to TypeScript patterns (minCount/maxCount to nullable/required properties)\n" ++
  "- Naming conventions (URI local names to camelCase properties)\n" ++
  "- Proper use of RDF/JS Wrapper utility methods (singular, singularNullable, set, overwrite, overwriteNullable)\n" ++
  "- Dataset iteration patterns with DatasetWrapper\n" ++
  "- Export organization in mod.ts files\n" ++
  "\n" ++
  "Your mission is to create documentation so clear and comprehensive that a developer can implement \n" ++
  "any SHACL-to-TypeScript conversion without needing to ask clarifying questions."

/-- `main.py` lines 35-71: the System Architect agent. -/
def architect (env : Env) : Agent :=
  { role := architect_role
    goal := architect_goal
    backstory := architect_backstory
    mcps := [file_mcp env]
    llm := llm_architect env
    verbose := true
    allow_delegation := false }

/-- The literal placeholder token for the shapes repository path, as it
appears (unresolved) in the source task description. -/
def repo_shapes_path_placeholder : String := "\x7bREPO_SHAPES_PATH\x7d"

/-- The literal placeholder token for the object repository path, as it
appears (unresolved) in the source task description. -/
def repo_object_path_placeholder : String := "\x7bREPO_OBJECT_PATH\x7d"

/-- `main.py` lines 75-88: the task description up to (and excluding) the
first occurrence of the shapes-path placeholder. -/
def architect_guide_task_description_part1 : String :=
  "Your task is to create a comprehensive guidance document for SHACL to Solid Object conversion.\n" ++
  "\n" ++
  "**Step 1: Read the Rules**\n" ++
  "Read and analyze the file `blueprints/rules.md` thoroughly. Understand:\n" ++
  "- Class mapping rules (sh:NodeShape -> TypeScript class)\n" ++
  "- Property mapping rules (sh:path, sh:datatype, sh:node, cardinalities)\n" ++
  "- Implementation guidelines (encapsulation, ValueMapping, ObjectMapping)\n" ++
  "- Dataset wrapping patterns\n" ++
  "\n" ++
  "**Step 2: Analyze All Examples**\n" ++
  "The rules.md file references these example pairs. You MUST read and analyze EACH of them:\n" ++
  "\n" ++
  "1. Group Shape: \n" ++
  "   - Shape: "

/-- `main.py` lines 88-89: the text between the first shapes-path
placeholder and the first object-path placeholder. -/
def architect_guide_task_description_part2 : String :=
  "/shapes/Group/groupShape.ttl\n" ++
  "   - TypeScript: "

/-- `main.py` lines 89-108: the text between the first object-path
placeholder and the run-time replacement note; the remaining placeholder
occurrences appear literally inside it. -/
def architect_guide_task_description_part3 : String :=
  "/src/solid/Group.ts and GroupDataset.ts\n" ++
  "\n" ++
  "2. Meeting Shape:\n" ++
  "   - Shape: \x7bREPO_SHAPES_PATH\x7d/shapes/Meeting/meetingShape.ttl\n" ++
  "   - TypeScript: \x7bREPO_OBJECT_PATH\x7d/src/solid/Meeting.ts and MeetingDataset.ts\n" ++
  "\n" ++
  "3. Organization Shape:\n" ++
  "   - Shape: \x7bREPO_SHAPES_PATH\x7d/shapes/Organization/organizationShape.ttl\n" ++
  "   - TypeScript: \x7bREPO_OBJECT_PATH\x7d/src/solid/Organization.ts and OrganizationDataset.ts\n" ++
  "\n" ++
  "4. Person Shape:\n" ++
  "   - Shapes: \x7bREPO_SHAPES_PATH\x7d/shapes/Person/personShape.ttl and personNameShape.ttl\n" ++
  "   - TypeScript: \x7bREPO_OBJECT_PATH\x7d/src/solid/Person.ts and PersonDataset.ts\n" ++
  "\n" ++
  "5. Profile Shape:\n" ++
  "   - Shape: \x7bREPO_SHAPES_PATH\x7d/shapes/PersonalProfile/personalProfileShape.ttl\n" ++
  "   - TypeScript: \x7bREPO_OBJECT_PATH\x7d/src/solid/Profile.ts and ProfileDataset.ts\n" ++
  "\n" ++
  "6. Mod file: \x7bREPO_OBJECT_PATH\x7d/src/solid/mod.ts\n" ++
  "\n"

/-- `main.py` lines 109-110: the note that instructs the consuming agent
to perform the placeholder replacement itself at run time. -/
def architect_guide_task_note : String :=
  "Note: Replace \x7bREPO_SHAPES_PATH\x7d with the value from environment variable REPO_SHAPES_PATH \n" ++
  "and \x7bREPO_OBJECT_PATH\x7d with the value from environment variable REPO_OBJECT_PATH.\n"

/-- `main.py` lines 111-142: the rest of the task description. -/
def architect_guide_task_description_part4 : String :=
  "\n" ++
  "**Step 3: Generate Comprehensive Guidance Document**\n" ++
  "Create agent_work/architect.md with the following structure:\n" ++
  "\n" ++
  "1. **Overview**: Purpose of the document and how to use it\n" ++
  "2. **SHACL to TypeScript Mapping Reference Table**: Complete mapping of SHACL constructs to TypeScript patterns\n" ++
  "3. **Class Generation Rules**: Step-by-step process for creating a class from sh:NodeShape\n" ++
  "4. **Property Generation Rules**: Detailed rules for each property type:\n" ++
  "   - Required string properties (sh:minCount 1, sh:datatype xsd:string)\n" ++
  "   - Optional string properties (no minCount or minCount 0)\n" ++
  "   - Required object references (sh:node with minCount 1)\n" ++
  "   - Optional object references (sh:node without minCount or minCount 0)\n" ++
  "   - Array properties (sh:maxCount > 1 or no maxCount)\n" ++
  "   - List properties using ObjectMapping.as()\n" ++
  "5. **Code Patterns**: Exact code templates with placeholders for:\n" ++
  "   - Import statements\n" ++
  "   - Class declaration extending TermWrapper\n" ++
  "   - Getter methods (singular, singularNullable, set patterns)\n" ++
  "   - Setter methods (overwrite, overwriteNullable patterns)\n" ++
  "   - DatasetWrapper implementation\n" ++
  "6. **Naming Conventions**: URI to property name conversion rules\n" ++
  "7. **Export Organization**: How to update mod.ts\n" ++
  "8. **Example Walkthroughs**: Detailed analysis of at least 2 complete examples showing:\n" ++
  "   - Original SHACL shape\n" ++
  "   - Resulting TypeScript code\n" ++
  "   - Explanation of each mapping decision\n" ++
  "9. **Common Patterns and Edge Cases**: Learned patterns from example analysis\n" ++
  "10. **Checklist for Developers**: Step-by-step implementation checklist\n" ++
  "\n" ++
  "The document must be self-contained - a developer should be able to implement any conversion \n" ++
  "using ONLY this document without needing to reference other files.\n"

/-- `main.py` lines 75-142: the full task description, assembled from its
parts; byte-identical to the source literal. -/
def architect_guide_task_description : String :=
  architect_guide_task_description_part1 ++
  repo_shapes_path_placeholder ++
  architect_guide_task_description_part2 ++
  repo_object_path_placeholder ++
  architect_guide_task_description_part3 ++
  architect_guide_task_note ++
  architect_guide_task_description_part4

/-- `main.py` lines 143-148: the expected-output string. -/
def architect_guide_task_expected_output : String :=
  "A comprehensive markdown document saved to agent_work/architect.md that contains:\n" ++
  "- Complete SHACL to TypeScript mapping reference\n" ++
  "- Detailed code templates and patterns\n" ++
  "- At least 2 fully analyzed example walkthroughs\n" ++
  "- Developer implementation checklist\n" ++
  "- All information needed for a developer to implement Shape to Solid Object conversions independently"

/-- `main.py` lines 74-151: the single task of the pipeline. No `context`
argument is passed in the source, so `depends_on` is the empty list. -/
def architect_guide_task (env : Env) : CrewTask :=
  { description := architect_guide_task_description
    expected_output := architect_guide_task_expected_output
    agent := architect env
    output_file := some "agent_work/architect.md" }

/-- `main.py` lines 154-159: the crew, with one agent, one task, and the
sequential process discipline. -/
def crew (env : Env) : Crew :=
  { agents := [architect env]
    tasks := [architect_guide_task env]
    process := Process.sequential
    verbose := true }

/-- Every task consumes only outputs of tasks that precede it in the list:
all declared dependency positions are strictly below the task's own
position. -/
def noForwardRefs (tasks : List CrewTask) : Bool :=
  tasks.enum.all fun p => p.2.depends_on.all fun j => decide (j < p.1)

/-- The outcome of a call to the LLM backend: either a response or a
raised error. -/
inductive CallOutcome where
  | success (response : String)
  | failure (err : String)

/-- What a finished process run looks like from the outside: the text it
printed and its exit status. -/
structure ProcResult where
  output : String
  exitCode : Nat

/-- `connection_test.py` lines 4-8: the connectivity check calls the LLM
inside try/except; both branches only print, and the script then ends
normally, so the exit status is 0 either way. -/
def connection_test : CallOutcome → ProcResult
  | CallOutcome.success _ =>
    { output := "Connection to GitHub Copilot successful!\n", exitCode := 0 }
  | CallOutcome.failure e =>
    { output := "Connection failed. Check your GITHUB_COPILOT_TOKEN. Error: " ++ e ++ "\n", exitCode := 0 }

/-- A line of 60 equals signs, as printed by `"="*60` in the source. -/
def banner_line : String := String.mk (List.replicate 60 (Char.ofNat 61))

/-- `main.py` lines 162-167 and 170-171: `main` runs `crew.kickoff()` with
no exception handler. On success it prints the completion banner and the
process exits 0; if the kickoff raises, the exception is uncaught, so the
interpreter prints a traceback diagnostic and the process exits 1
(`main` is a reserved entry-point name in Lean, hence `main_run`). -/
def main_run (env : Env) (kick : CallOutcome) : ProcResult :=
  match kick with
  | CallOutcome.success _ =>
    { output :=
        "\n" ++ banner_line ++ "\n" ++
        "System Architect has completed the guidance document.\n" ++
        "Output saved to: agent_work/architect.md\n" ++
        banner_line ++ "\n"
      exitCode := 0 }
  | CallOutcome.failure e =>
    { output := "Traceback (most recent call last):\n" ++ e ++ "\n", exitCode := 1 }

/-- The possible outcomes of the subprocess underlying one shell-tool
invocation: normal completion with captured streams and exit code, a
timeout, or an execution error raised while spawning or running. -/
inductive RunOutcome where
  | completed (stdout stderr : String) (exit_code : Int)
  | timedOut
  | execError (msg : String)

/-- Modelled from the spec: the Shell Tool's fixed timeout of 60 time
units (no shell tool exists under the repository source; only the spec
describes it). -/
def shell_timeout : Nat := 60

/-- Modelled from the spec: the Shell Tool's `run(command)` operation.
No shell tool exists under the repository source; the spec's section 4.2
describes it: it executes the command in a subprocess with the fixed
timeout, captures stdout and stderr, appends the exit code when non-zero,
turns a timeout into a `CommandTimedOut` report and any execution error
into a `CommandFailed` report with a diagnostic, and returns plain text in
every case (it never raises, which the `String` return type captures). -/
def run (command : String) (outcome : RunOutcome) : String :=
  match outcome with
  | RunOutcome.completed out err code =>
    "STDOUT:\n" ++ out ++ "\nSTDERR:\n" ++ err ++
      (if code = 0 then "" else "\nReturn code: " ++ toString code)
  | RunOutcome.timedOut =>
    "CommandTimedOut: command exceeded the " ++ toString shell_timeout ++
      " time unit limit: " ++ command
  | RunOutcome.execError msg => "CommandFailed: " ++ msg

/-- Modelled from the spec: the configuration-stage error taxonomy
(`ConfigNotFound`, `PlaceholderMissing`); no config loader exists under
the repository source. -/
inductive ConfigError where
  | ConfigNotFound
  | PlaceholderMissing (key : String)
deriving DecidableEq

/-- Modelled from the spec: one declarative per-agent configuration
record, fields `role, goal, backstory, task_description, expected_output,
output_file`, all string-typed. -/
structure AgentConfig where
  role : String
  goal : String
  backstory : String
  task_description : String
  expected_output : String
  output_file : String
deriving DecidableEq

/-- Modelled from the spec: the placeholder-substitution scanner over a
template's characters. The second argument is `none` outside a
placeholder and `some acc` while accumulating a (reversed) key after an
opening brace. A closed placeholder is replaced by the mapped value, a
missing key fails with `PlaceholderMissing`, and an unterminated opening
brace is kept as literal text. -/
def resolveGo (m : List (String × String)) :
    List Char → Option (List Char) → Except ConfigError (List Char)
  | [], none => Except.ok []
  | [], some acc => Except.ok (lbrace :: acc.reverse)
  | c :: cs, none =>
    if c = lbrace then resolveGo m cs (some [])
    else (resolveGo m cs none).map fun r => c :: r
  | c :: cs, some acc =>
    if c = rbrace then
      match m.lookup (String.mk acc.reverse) with
      | none => Except.error (ConfigError.PlaceholderMissing (String.mk acc.reverse))
      | some v => (resolveGo m cs none).map fun r => v.data ++ r
    else resolveGo m cs (some (c :: acc))

/-- Modelled from the spec: resolve one string template against a
substitution mapping. -/
def resolveTemplate (m : List (String × String)) (s : String) :
    Except ConfigError String :=
  (resolveGo m s.data none).map String.mk

/-- The keys referenced by the placeholders of a template (same scan as
`resolveGo`, collecting the keys instead of substituting). -/
def referencedKeysGo : List Char → Option (List Char) → List String
  | [], _ => []
  | c :: cs, none =>
    if c = lbrace then referencedKeysGo cs (some []) else referencedKeysGo cs none
  | c :: cs, some acc =>
    if c = rbrace then String.mk acc.reverse :: referencedKeysGo cs none
    else referencedKeysGo cs (some (c :: acc))

/-- The substitution keys a template references. -/
def referencedKeys (s : String) : List String := referencedKeysGo s.data none

/-- The six string templates of a configuration record. -/
def configTemplates (c : AgentConfig) : List String :=
  [c.role, c.goal, c.backstory, c.task_description, c.expected_output, c.output_file]

/-- All substitution keys referenced anywhere in a configuration record. -/
def configRefs (c : AgentConfig) : List String :=
  (configTemplates c).flatMap referencedKeys

/-- Modelled from the spec: apply substitution to every string field of a
configuration record. -/
def resolveConfig (m : List (String × String)) (c : AgentConfig) :
    Except ConfigError AgentConfig :=
  (resolveTemplate m c.role).bind fun role =>
  (resolveTemplate m c.goal).bind fun goal =>
  (resolveTemplate m c.backstory).bind fun backstory =>
  (resolveTemplate m c.task_description).bind fun task_description =>
  (resolveTemplate m c.expected_output).bind fun expected_output =>
  (resolveTemplate m c.output_file).map fun output_file =>
  { role := role, goal := goal, backstory := backstory,
    task_description := task_description, expected_output := expected_output,
    output_file := output_file }

/-- Modelled from the spec: the Config Loader. Given an agent identifier
and a substitution mapping, it loads the backing declarative record and
resolves every string field; it fails with `ConfigNotFound` when the
identifier has no backing record. No config loader exists under the
repository source (agent configuration is hardcoded inline). -/
def loadConfig (records : List (String × AgentConfig)) (id : String)
    (m : List (String × String)) : Except ConfigError AgentConfig :=
  match records.lookup id with
  | none => Except.error ConfigError.ConfigNotFound
  | some c => resolveConfig m c

/-- One scheduling event of a pipeline run: task `i` enters the `Running`
state, or task `i` reaches the `Completed` state. -/
inductive SeqEvent where
  | start (i : Nat)
  | complete (i : Nat)
deriving DecidableEq

/-- Modelled from the spec: the event trace of the sequential process
discipline over `n` tasks — each task starts and completes before the
next one starts (the execution engine itself lives in the external crewai
framework, not under the repository source). -/
def seqSchedule : Nat → List SeqEvent
  | 0 => []
  | n + 1 => seqSchedule n ++ [SeqEvent.start n, SeqEvent.complete n]

/-- The effect of one event on the number of tasks in the `Running`
state. -/
def seqStep (r : Int) (e : SeqEvent) : Int :=
  match e with
  | SeqEvent.start _ => r + 1
  | SeqEvent.complete _ => r - 1

/-- How many tasks are in the `Running` state after a sequence of
events. -/
def runningAfter (evs : List SeqEvent) : Int := evs.foldl seqStep 0

/-- Modelled from the spec: kicking off a crew produces the event trace
of its declared process discipline over its task list. -/
def kickoff (c : Crew) : List SeqEvent :=
  match c.process with
  | Process.sequential => seqSchedule c.tasks.length

/-- Modelled from the spec: the task list built from one loaded
configuration record (one task per record, as in the source pipeline). -/
def buildTasks (c : AgentConfig) : List String := [c.task_description]

/-- Modelled from the spec: construct the pipeline from a configuration
record and run it sequentially; a configuration error aborts construction,
so no task ever starts. -/
def runPipeline (records : List (String × AgentConfig)) (id : String)
    (m : List (String × String)) : Except ConfigError (List SeqEvent) :=
  (loadConfig records id m).map fun c => seqSchedule (buildTasks c).length

/-- The empty environment: no variable is set. -/
def none_env : Env := fun _ => none

/-- An environment that sets only `MODEL_NAME_ARCHITECT`. -/
def model_env : Env :=
  fun k => if k = "MODEL_NAME_ARCHITECT" then some "o1-preview" else none

/-- A substitution mapping whose value itself contains placeholder
syntax. -/
def cex_values : List (String × String) := [("a", "\x7ba\x7dx")]

/-- A configuration record referencing the key `a`. -/
def cex_config : AgentConfig :=
  { role := "r", goal := "g", backstory := "b",
    task_description := "Analyze \x7ba\x7d", expected_output := "e", output_file := "o" }

/-- `cex_config` after one resolution with `cex_values`. -/
def cex_config_once : AgentConfig :=
  { role := "r", goal := "g", backstory := "b",
    task_description := "Analyze \x7ba\x7dx", expected_output := "e", output_file := "o" }

/-- `cex_config` after two resolutions with `cex_values`. -/
def cex_config_twice : AgentConfig :=
  { role := "r", goal := "g", backstory := "b",
    task_description := "Analyze \x7ba\x7dxx", expected_output := "e", output_file := "o" }

/-- A well-behaved substitution mapping (no brace in any value). -/
def wit_values : List (String × String) := [("shape_name", "Email")]

/-- A configuration record referencing the key `shape_name`. -/
def wit_config : AgentConfig :=
  { role := "r", goal := "g", backstory := "b",
    task_description := "Analyze \x7bshape_name\x7d", expected_output := "e", output_file := "o" }

/-- A one-record configuration store backing the identifier
`architect`. -/
def wit_records : List (String × AgentConfig) := [("architect", wit_config)]

theorem nil_isPrefixOf_any (l : List Char) : List.isPrefixOf [] l = true := by
  cases l <;> rfl

theorem isPrefixOf_extend (p : List Char) :
    ∀ (a b : List Char), p.isPrefixOf a = true → p.isPrefixOf (a ++ b) = true := by
  induction p with
  | nil => intro a b _; exact nil_isPrefixOf_any (a ++ b)
  | cons x xs ih =>
    intro a b h
    cases a with
    | nil => exact Bool.noConfusion h
    | cons y ys =>
      simp only [List.isPrefixOf, Bool.and_eq_true] at h
      simp only [List.cons_append, List.isPrefixOf, Bool.and_eq_true]
      exact ⟨h.1, ih ys b h.2⟩

theorem isPrefixOf_self (l : List Char) : l.isPrefixOf l = true := by
  induction l with
  | nil => rfl
  | cons x xs ih =>
    simp only [List.isPrefixOf, Bool.and_eq_true]
    exact ⟨beq_self_eq_true x, ih⟩

theorem hasSubstring_nil_pat (l : List Char) : hasSubstring [] l = true := by
  cases l with
  | nil => rfl
  | cons c cs => simp only [hasSubstring, List.isPrefixOf, Bool.true_or]

theorem hasSubstring_refl (p : List Char) : hasSubstring p p = true := by
  cases p with
  | nil => rfl
  | cons c cs =>
    simp only [hasSubstring, Bool.or_eq_true]
    exact Or.inl (isPrefixOf_self (c :: cs))

theorem hasSubstring_append_left (p : List Char) :
    ∀ (a b : List Char), hasSubstring p a = true → hasSubstring p (a ++ b) = true := by
  intro a
  induction a with
  | nil =>
    intro b h
    have hp : p = [] := by
      cases p with
      | nil => rfl
      | cons x xs => exact Bool.noConfusion h
    subst hp
    simpa using hasSubstring_nil_pat b
  | cons c cs ih =>
    intro b h
    simp only [hasSubstring, Bool.or_eq_true] at h
    simp only [List.cons_append, hasSubstring, Bool.or_eq_true]
    rcases h with h | h
    · exact Or.inl (by simpa [List.cons_append] using isPrefixOf_extend p (c :: cs) b h)
    · exact Or.inr (ih b h)

theorem hasSubstring_append_right (p : List Char) :
    ∀ (a b : List Char), hasSubstring p b = true → hasSubstring p (a ++ b) = true := by
  intro a
  induction a with
  | nil => intro b h; simpa using h
  | cons c cs ih =>
    intro b h
    simp only [List.cons_append, hasSubstring, Bool.or_eq_true]
    exact Or.inr (ih b h)

theorem strContains_append_left (a b pat : String)
    (h : strContains a pat = true) : strContains (a ++ b) pat = true := by
  unfold strContains at h ⊢
  rw [String.data_append]
  exact hasSubstring_append_left pat.data a.data b.data h

theorem strContains_append_right (a b pat : String)
    (h : strContains b pat = true) : strContains (a ++ b) pat = true := by
  unfold strContains at h ⊢
  rw [String.data_append]
  exact hasSubstring_append_right pat.data a.data b.data h

theorem strContains_self (s : String) : strContains s s = true :=
  hasSubstring_refl s.data

set_option maxRecDepth 4000 in
theorem description_parts (env : Env) :
    (architect_guide_task env).description =
      architect_guide_task_description_part1 ++
        (repo_shapes_path_placeholder ++
          (architect_guide_task_description_part2 ++
            (repo_object_path_placeholder ++
              (architect_guide_task_description_part3 ++
                (architect_guide_task_note ++
                  architect_guide_task_description_part4))))) := rfl

set_option maxRecDepth 4000 in
/-- C1 counterexample: the claim says the description handed to the agent
contains no remaining placeholder syntax, but the description of the task
constructed by `main.py` still contains the literal token
`\x7bREPO_SHAPES_PATH\x7d` (shown here at its first occurrence). -/
theorem c1_description_retains_placeholder :
    ∃ pre post : String,
      (architect_guide_task none_env).description =
        pre ++ ("\x7bREPO_SHAPES_PATH\x7d" ++ post) :=
  ⟨architect_guide_task_description_part1,
    architect_guide_task_description_part2 ++
      (repo_object_path_placeholder ++
        (architect_guide_task_description_part3 ++
          (architect_guide_task_note ++
            architect_guide_task_description_part4))), rfl⟩

/-- C1 amended: placeholder resolution does not happen at
configuration-load time; for every environment the description handed to
the agent still contains the literal placeholders `{REPO_SHAPES_PATH}`
and `{REPO_OBJECT_PATH}`, together with a note instructing the consuming
agent to perform the replacement with the environment values itself at
run time. -/
theorem c1_placeholders_deferred_to_agent (env : Env) :
    strContains (architect_guide_task env).description "\x7bREPO_SHAPES_PATH\x7d" = true ∧
    strContains (architect_guide_task env).description "\x7bREPO_OBJECT_PATH\x7d" = true ∧
    strContains (architect_guide_task env).description
      "Note: Replace \x7bREPO_SHAPES_PATH\x7d with the value from environment variable REPO_SHAPES_PATH" = true := by
  rw [description_parts env]
  refine ⟨?_, ?_, ?_⟩
  · exact strContains_append_right _ _ _
      (strContains_append_left _ _ _ (strContains_self _))
  · exact strContains_append_right _ _ _
      (strContains_append_right _ _ _
        (strContains_append_right _ _ _
          (strContains_append_left _ _ _ (strContains_self _))))
  · exact strContains_append_right _ _ _
      (strContains_append_right _ _ _
        (strContains_append_right _ _ _
          (strContains_append_right _ _ _
            (strContains_append_right _ _ _
              (strContains_append_left _ _ _ (by decide))))))

/-- C2 counterexample: even in an environment that sets
`MODEL_NAME_ARCHITECT`, the constructed LLM configuration uses the
hardcoded model identifier `gpt-4o`, not the environment-supplied one
(the read of `MODEL_NAME_ARCHITECT` is commented out in the source). -/
theorem c2_model_not_from_environment :
    model_env "MODEL_NAME_ARCHITECT" = some "o1-preview" ∧
    (llm_architect model_env).model = "gpt-4o" ∧
    (llm_architect model_env).model ≠ "o1-preview" := by
  refine ⟨?_, rfl, ?_⟩
  · decide
  · decide

/-- C2 amended: at process start the program reads the API credential
(`GITHUB_COPILOT_TOKEN`) and the two repository root paths from
environment variables, but the model identifier is hardcoded to
`gpt-4o`; the agent's LLM configuration uses that hardcoded identifier,
not an environment-supplied one. -/
theorem c2_env_credential_hardcoded_model (env : Env) :
    (llm_architect env).model = "gpt-4o" ∧
    (llm_architect env).api_key = env "GITHUB_COPILOT_TOKEN" ∧
    (llm_architect env).base_url = "https://models.github.ai/inference" ∧
    (file_mcp env).args.get? 2 = some ((env "REPO_SHAPES_PATH").getD "./blueprints") ∧
    (file_mcp env).args.get? 3 = some ((env "REPO_OBJECT_PATH").getD "./blueprints") :=
  ⟨rfl, rfl, rfl, rfl, rfl⟩

/-- C6 counterexample: an LLM backend call that cannot complete is a
fatal error in the claim's sense, yet the connectivity-check script
catches it and terminates with exit status 0, not a non-zero status. -/
theorem c6_connection_check_exit_zero :
    (connection_test (CallOutcome.failure "connection refused")).exitCode = 0 := rfl

/-- C6 amended: a fatal error during the pipeline run propagates as an
uncaught exception out of `main`, so the interpreter prints a traceback
diagnostic and the process exits non-zero; the connectivity-check script,
however, catches LLM-call failures, prints a diagnostic, and exits 0. -/
theorem c6_fatal_error_exits (env : Env) (e : String) :
    (main_run env (CallOutcome.failure e)).exitCode ≠ 0 ∧
    strContains (main_run env (CallOutcome.failure e)).output "Traceback" = true ∧
    (connection_test (CallOutcome.failure e)).exitCode = 0 := by
  refine ⟨Nat.one_ne_zero, ?_, rfl⟩
  apply strContains_append_left
  apply strContains_append_left
  decide

/-- C7: every task of the constructed crew consumes only outputs of tasks
that precede it in the sequential list — each declared dependency position
is strictly below the task's own position, so there are no forward
references and no cycles, by construction of the list (the single task
declares no dependencies). -/
theorem c7_no_forward_refs (env : Env) : noForwardRefs (crew env).tasks = true := rfl

/-- C9: the connectivity-check script never raises and always terminates
with exit status 0 — for every outcome of the LLM call the exit code is 0,
and a failure is reported only as printed text containing the error. -/
theorem c9_connection_check_total (o : CallOutcome) :
    (connection_test o).exitCode = 0 ∧
    ∀ e, o = CallOutcome.failure e →
      strContains (connection_test o).output e = true := by
  cases o with
  | success r =>
    refine ⟨rfl, ?_⟩
    intro e h
    exact absurd h (by simp)
  | failure e0 =>
    refine ⟨rfl, ?_⟩
    intro e h
    have he : e0 = e := by injection h
    subst he
    exact strContains_append_left _ _ _
      (strContains_append_right _ _ _ (strContains_self e0))

/-- Witness for C9 at a concrete failing call. -/
theorem c9_connection_check_total_witness :
    (connection_test (CallOutcome.failure "timeout")).exitCode = 0 ∧
    strContains (connection_test (CallOutcome.failure "timeout")).output "timeout" = true := by
  have h := c9_connection_check_total (CallOutcome.failure "timeout")
  exact ⟨h.1, h.2 "timeout" rfl⟩

/-- C10: when `REPO_SHAPES_PATH` (respectively `REPO_OBJECT_PATH`) is
unset, the filesystem tool server receives the default path
`./blueprints` in that argument position, and `./blueprints` is always
among the allowed roots, whatever the environment. -/
theorem c10_default_blueprints (env : Env) :
    (env "REPO_SHAPES_PATH" = none → (file_mcp env).args.get? 2 = some "./blueprints") ∧
    (env "REPO_OBJECT_PATH" = none → (file_mcp env).args.get? 3 = some "./blueprints") ∧
    "./blueprints" ∈ (file_mcp env).args := by
  refine ⟨?_, ?_, ?_⟩
  · intro h
    show some ((env "REPO_SHAPES_PATH").getD "./blueprints") = some "./blueprints"
    rw [h]
    rfl
  · intro h
    show some ((env "REPO_OBJECT_PATH").getD "./blueprints") = some "./blueprints"
    rw [h]
    rfl
  · exact List.Mem.tail _ (List.Mem.tail _ (List.Mem.tail _ (List.Mem.tail _ (List.Mem.head _))))

/-- Witness for C10 in the empty environment. -/
theorem c10_default_blueprints_witness :
    (file_mcp none_env).args.get? 2 = some "./blueprints" ∧
    (file_mcp none_env).args.get? 3 = some "./blueprints" ∧
    "./blueprints" ∈ (file_mcp none_env).args := by
  have h := c10_default_blueprints none_env
  exact ⟨h.1 rfl, h.2.1 rfl, h.2.2⟩

/-- C4: the Shell Tool never raises — `run` returns a report string for
every command and every subprocess outcome (captured by its total
`String` type). The timeout limit is fixed at 60 time units; a timeout
yields a `CommandTimedOut` report and an execution error yields a
`CommandFailed` report carrying the diagnostic message, in all cases as
returned text. -/
theorem c4_shell_tool_reports (command : String) (outcome : RunOutcome) :
    shell_timeout = 60 ∧
    (outcome = RunOutcome.timedOut →
      strContains (run command outcome) "CommandTimedOut" = true) ∧
    (∀ msg, outcome = RunOutcome.execError msg →
      strContains (run command outcome) "CommandFailed" = true ∧
      strContains (run command outcome) msg = true) := by
  refine ⟨rfl, ?_, ?_⟩
  · intro h
    subst h
    simp only [run]
    apply strContains_append_left
    apply strContains_append_left
    apply strContains_append_left
    decide
  · intro msg h
    subst h
    simp only [run]
    constructor
    · apply strContains_append_left
      decide
    · apply strContains_append_right
      exact strContains_self msg

/-- Witness for C4 at a concrete command, timeout and execution error. -/
theorem c4_shell_tool_reports_witness :
    shell_timeout = 60 ∧
    strContains (run "make build" RunOutcome.timedOut) "CommandTimedOut" = true ∧
    strContains (run "make build" (RunOutcome.execError "spawn failed")) "CommandFailed" = true ∧
    strContains (run "make build" (RunOutcome.execError "spawn failed")) "spawn failed" = true := by
  have h1 := c4_shell_tool_reports "make build" RunOutcome.timedOut
  have h2 := c4_shell_tool_reports "make build" (RunOutcome.execError "spawn failed")
  exact ⟨h1.1, h1.2.1 rfl, (h2.2.2 "spawn failed" rfl).1, (h2.2.2 "spawn failed" rfl).2⟩

theorem runningAfter_seqSchedule (n : Nat) : runningAfter (seqSchedule n) = 0 := by
  induction n with
  | zero => rfl
  | succ n ih =>
    have h : (seqSchedule n).foldl seqStep 0 = 0 := ih
    show (seqSchedule n ++ [SeqEvent.start n, SeqEvent.complete n]).foldl seqStep 0 = 0
    rw [List.foldl_append, h]
    rfl

theorem runningAfter_seqSchedule_start (k : Nat) :
    runningAfter (seqSchedule k ++ [SeqEvent.start k]) = 1 := by
  have h : (seqSchedule k).foldl seqStep 0 = 0 := runningAfter_seqSchedule k
  show (seqSchedule k ++ [SeqEvent.start k]).foldl seqStep 0 = 1
  rw [List.foldl_append, h]
  rfl

theorem snocSplit {α : Type} (p l : List α) (a : α) (h : p <+: l ++ [a]) :
    p = l ++ [a] ∨ p <+: l := by
  obtain ⟨t, ht⟩ := h
  rcases List.eq_nil_or_concat t with rfl | ⟨t0, b, rfl⟩
  · left
    simpa using ht
  · right
    rw [List.concat_eq_append, ← List.append_assoc] at ht
    obtain ⟨h1, h2⟩ := List.append_inj' ht rfl
    exact ⟨t0, h1⟩

theorem start_mem_seqSchedule {i n : Nat} :
    SeqEvent.start i ∈ seqSchedule n ↔ i < n := by
  induction n with
  | zero => simp [seqSchedule]
  | succ n ih =>
    simp [seqSchedule, ih]
    omega

theorem complete_mem_seqSchedule {i n : Nat} :
    SeqEvent.complete i ∈ seqSchedule n ↔ i < n := by
  induction n with
  | zero => simp [seqSchedule]
  | succ n ih =>
    simp [seqSchedule, ih]
    omega

theorem scheduleSplit (n : Nat) :
    ∀ p : List SeqEvent, p <+: seqSchedule n →
      (∃ k, k ≤ n ∧ p = seqSchedule k) ∨
      (∃ k, k < n ∧ p = seqSchedule k ++ [SeqEvent.start k]) := by
  induction n with
  | zero =>
    intro p hp
    left
    refine ⟨0, Nat.le_refl 0, ?_⟩
    obtain ⟨t, ht⟩ := hp
    simp [seqSchedule] at ht
    exact ht.1
  | succ n ih =>
    intro p hp
    have hsplit : seqSchedule (n + 1) =
        (seqSchedule n ++ [SeqEvent.start n]) ++ [SeqEvent.complete n] := by
      rw [seqSchedule]
      simp
    rw [hsplit] at hp
    rcases snocSplit p _ _ hp with h1 | h1
    · left
      refine ⟨n + 1, Nat.le_refl _, ?_⟩
      rw [h1, hsplit]
    · rcases snocSplit p _ _ h1 with h2 | h2
      · right
        exact ⟨n, Nat.lt_succ_self n, h2⟩
      · rcases ih p h2 with ⟨k, hk, hp2⟩ | ⟨k, hk, hp2⟩
        · exact Or.inl ⟨k, Nat.le_succ_of_le hk, hp2⟩
        · exact Or.inr ⟨k, Nat.lt_succ_of_lt hk, hp2⟩

/-- C3: the crew constructed by `main.py` declares the sequential process
discipline, and along every prefix of the resulting execution trace at
most one task is in the `Running` state, and a task starts only after its
predecessor has reached `Completed`. -/
theorem c3_sequential_discipline (env : Env) (p : List SeqEvent)
    (hp : p <+: kickoff (crew env)) :
    (crew env).process = Process.sequential ∧
    runningAfter p ≤ 1 ∧
    ∀ i, SeqEvent.start (i + 1) ∈ p → SeqEvent.complete i ∈ p := by
  have hp2 : p <+: seqSchedule 1 := hp
  refine ⟨rfl, ?_, ?_⟩
  · rcases scheduleSplit 1 p hp2 with ⟨k, hk, rfl⟩ | ⟨k, hk, rfl⟩
    · rw [runningAfter_seqSchedule]
      omega
    · rw [runningAfter_seqSchedule_start]
  · intro i hi
    rcases scheduleSplit 1 p hp2 with ⟨k, hk, rfl⟩ | ⟨k, hk, rfl⟩
    · have h1 : i + 1 < k := start_mem_seqSchedule.mp hi
      exact complete_mem_seqSchedule.mpr (by omega)
    · rcases List.mem_append.mp hi with h | h
      · have h1 : i + 1 < k := start_mem_seqSchedule.mp h
        exact List.mem_append_left _ (complete_mem_seqSchedule.mpr (by omega))
      · have h1 : i + 1 = k := by
          simpa using h
        exact List.mem_append_left _ (complete_mem_seqSchedule.mpr (by omega))

/-- Witness for C3 at the mid-execution prefix in which the single task
has started but not yet completed. -/
theorem c3_sequential_discipline_witness :
    runningAfter [SeqEvent.start 0] ≤ 1 ∧
    (SeqEvent.start 1 ∈ [SeqEvent.start 0] → SeqEvent.complete 0 ∈ [SeqEvent.start 0]) := by
  have h := c3_sequential_discipline none_env [SeqEvent.start 0]
    ⟨[SeqEvent.complete 0], rfl⟩
  exact ⟨h.2.1, h.2.2 0⟩

theorem resolveGo_shape (m : List (String × String)) :
    ∀ (l : List Char) (st : Option (List Char)),
      (∃ t, resolveGo m l st = Except.ok t) ∨
      (∃ k, resolveGo m l st = Except.error (ConfigError.PlaceholderMissing k)) := by
  intro l
  induction l with
  | nil =>
    intro st
    cases st with
    | none => exact Or.inl ⟨[], rfl⟩
    | some acc => exact Or.inl ⟨lbrace :: acc.reverse, rfl⟩
  | cons c cs ih =>
    intro st
    cases st with
    | none =>
      by_cases hc : c = lbrace
      · rw [show resolveGo m (c :: cs) none = resolveGo m cs (some []) from by
          simp [resolveGo, hc]]
        exact ih (some [])
      · rcases ih none with ⟨t, ht⟩ | ⟨k, hk⟩
        · exact Or.inl ⟨c :: t, by simp [resolveGo, hc, ht, Except.map]⟩
        · exact Or.inr ⟨k, by simp [resolveGo, hc, hk, Except.map]⟩
    | some acc =>
      by_cases hc : c = rbrace
      · cases hl : m.lookup (String.mk acc.reverse) with
        | none => exact Or.inr ⟨String.mk acc.reverse, by simp [resolveGo, hc, hl]⟩
        | some v =>
          rcases ih none with ⟨t, ht⟩ | ⟨k, hk⟩
          · exact Or.inl ⟨v.data ++ t, by simp [resolveGo, hc, hl, ht, Except.map]⟩
          · exact Or.inr ⟨k, by simp [resolveGo, hc, hl, hk, Except.map]⟩
      · rw [show resolveGo m (c :: cs) (some acc) = resolveGo m cs (some (c :: acc)) from by
          simp [resolveGo, hc]]
        exact ih (some (c :: acc))

theorem resolveGo_missing (m : List (String × String)) :
    ∀ (l : List Char) (st : Option (List Char)),
      (∃ k, k ∈ referencedKeysGo l st ∧ m.lookup k = none) →
      ∃ k2, resolveGo m l st = Except.error (ConfigError.PlaceholderMissing k2) := by
  intro l
  induction l with
  | nil =>
    intro st h
    obtain ⟨k, hk, _⟩ := h
    cases st <;> simp [referencedKeysGo] at hk
  | cons c cs ih =>
    intro st h
    obtain ⟨k, hk, hnone⟩ := h
    cases st with
    | none =>
      by_cases hc : c = lbrace
      · rw [show resolveGo m (c :: cs) none = resolveGo m cs (some []) from by
          simp [resolveGo, hc]]
        exact ih (some []) ⟨k, by simpa [referencedKeysGo, hc] using hk, hnone⟩
      · obtain ⟨k2, h2⟩ := ih none ⟨k, by simpa [referencedKeysGo, hc] using hk, hnone⟩
        exact ⟨k2, by simp [resolveGo, hc, h2, Except.map]⟩
    | some acc =>
      by_cases hc : c = rbrace
      · have hk2 : k = String.mk acc.reverse ∨ k ∈ referencedKeysGo cs none := by
          simpa [referencedKeysGo, hc] using hk
        cases hl : m.lookup (String.mk acc.reverse) with
        | none =>
          exact ⟨String.mk acc.reverse, by simp [resolveGo, hc, hl]⟩
        | some v =>
          rcases hk2 with rfl | hk3
          · rw [hl] at hnone
            exact Option.noConfusion hnone
          · obtain ⟨k2, h2⟩ := ih none ⟨k, hk3, hnone⟩
            exact ⟨k2, by simp [resolveGo, hc, hl, h2, Except.map]⟩
      · rw [show resolveGo m (c :: cs) (some acc) = resolveGo m cs (some (c :: acc)) from by
          simp [resolveGo, hc]]
        exact ih (some (c :: acc)) ⟨k, by simpa [referencedKeysGo, hc] using hk, hnone⟩

theorem resolveTemplate_shape (m : List (String × String)) (s : String) :
    (∃ t, resolveTemplate m s = Except.ok t) ∨
    (∃ k, resolveTemplate m s = Except.error (ConfigError.PlaceholderMissing k)) := by
  rcases resolveGo_shape m s.data none with ⟨t, ht⟩ | ⟨k, hk⟩
  · exact Or.inl ⟨String.mk t, by simp [resolveTemplate, ht, Except.map]⟩
  · exact Or.inr ⟨k, by simp [resolveTemplate, hk, Except.map]⟩

theorem resolveTemplate_missing (m : List (String × String)) (s : String)
    (h : ∃ k, k ∈ referencedKeys s ∧ m.lookup k = none) :
    ∃ k2, resolveTemplate m s = Except.error (ConfigError.PlaceholderMissing k2) := by
  obtain ⟨k2, h2⟩ := resolveGo_missing m s.data none h
  exact ⟨k2, by simp [resolveTemplate, h2, Except.map]⟩

theorem resolveConfig_missing (m : List (String × String)) (c : AgentConfig)
    (h : ∃ k, k ∈ configRefs c ∧ m.lookup k = none) :
    ∃ k2, resolveConfig m c = Except.error (ConfigError.PlaceholderMissing k2) := by
  obtain ⟨k, hk, hnone⟩ := h
  have hk2 : k ∈ referencedKeys c.role ∨ k ∈ referencedKeys c.goal ∨
      k ∈ referencedKeys c.backstory ∨ k ∈ referencedKeys c.task_description ∨
      k ∈ referencedKeys c.expected_output ∨ k ∈ referencedKeys c.output_file := by
    simpa [configRefs, configTemplates] using hk
  rcases resolveTemplate_shape m c.role with ⟨t1, e1⟩ | ⟨k1, e1⟩
  · rcases resolveTemplate_shape m c.goal with ⟨t2, e2⟩ | ⟨k2, e2⟩
    · rcases resolveTemplate_shape m c.backstory with ⟨t3, e3⟩ | ⟨k3, e3⟩
      · rcases resolveTemplate_shape m c.task_description with ⟨t4, e4⟩ | ⟨k4, e4⟩
        · rcases resolveTemplate_shape m c.expected_output with ⟨t5, e5⟩ | ⟨k5, e5⟩
          · rcases resolveTemplate_shape m c.output_file with ⟨t6, e6⟩ | ⟨k6, e6⟩
            · exfalso
              rcases hk2 with hm | hm | hm | hm | hm | hm
              · obtain ⟨kk, ee⟩ := resolveTemplate_missing m c.role ⟨k, hm, hnone⟩
                rw [e1] at ee
                exact Except.noConfusion ee
              · obtain ⟨kk, ee⟩ := resolveTemplate_missing m c.goal ⟨k, hm, hnone⟩
                rw [e2] at ee
                exact Except.noConfusion ee
              · obtain ⟨kk, ee⟩ := resolveTemplate_missing m c.backstory ⟨k, hm, hnone⟩
                rw [e3] at ee
                exact Except.noConfusion ee
              · obtain ⟨kk, ee⟩ := resolveTemplate_missing m c.task_description ⟨k, hm, hnone⟩
                rw [e4] at ee
                exact Except.noConfusion ee
              · obtain ⟨kk, ee⟩ := resolveTemplate_missing m c.expected_output ⟨k, hm, hnone⟩
                rw [e5] at ee
                exact Except.noConfusion ee
              · obtain ⟨kk, ee⟩ := resolveTemplate_missing m c.output_file ⟨k, hm, hnone⟩
                rw [e6] at ee
                exact Except.noConfusion ee
            · exact ⟨k6, by simp [resolveConfig, e1, e2, e3, e4, e5, e6, Except.bind, Except.map]⟩
          · exact ⟨k5, by simp [resolveConfig, e1, e2, e3, e4, e5, Except.bind, Except.map]⟩
        · exact ⟨k4, by simp [resolveConfig, e1, e2, e3, e4, Except.bind, Except.map]⟩
      · exact ⟨k3, by simp [resolveConfig, e1, e2, e3, Except.bind, Except.map]⟩
    · exact ⟨k2, by simp [resolveConfig, e1, e2, Except.bind, Except.map]⟩
  · exact ⟨k1, by simp [resolveConfig, e1, Except.bind, Except.map]⟩

/-- C5: the Config Loader fails with `ConfigNotFound` when the agent
identifier has no backing declarative record, and with
`PlaceholderMissing` when some loaded template references a substitution
key absent from the supplied mapping; in both cases pipeline construction
aborts with that error, so no task ever runs. -/
theorem c5_config_loader_failures (records : List (String × AgentConfig))
    (id : String) (m : List (String × String)) :
    (records.lookup id = none →
      loadConfig records id m = Except.error ConfigError.ConfigNotFound ∧
      runPipeline records id m = Except.error ConfigError.ConfigNotFound) ∧
    (∀ c, records.lookup id = some c →
      (∃ k, k ∈ configRefs c ∧ m.lookup k = none) →
      ∃ k2, loadConfig records id m = Except.error (ConfigError.PlaceholderMissing k2) ∧
        runPipeline records id m = Except.error (ConfigError.PlaceholderMissing k2)) := by
  constructor
  · intro h
    have h1 : loadConfig records id m = Except.error ConfigError.ConfigNotFound := by
      simp [loadConfig, h]
    exact ⟨h1, by simp [runPipeline, h1, Except.map]⟩
  · intro c hc hmissing
    obtain ⟨k2, h2⟩ := resolveConfig_missing m c hmissing
    have h1 : loadConfig records id m = Except.error (ConfigError.PlaceholderMissing k2) := by
      simp [loadConfig, hc, h2]
    exact ⟨k2, h1, by simp [runPipeline, h1, Except.map]⟩

/-- Witness for C5: an unknown identifier yields `ConfigNotFound`; the
known identifier resolved against an empty mapping (missing the
referenced key `shape_name`) yields `PlaceholderMissing`, and in both
cases the pipeline run aborts with the same error before any task
starts. -/
theorem c5_config_loader_failures_witness :
    (loadConfig wit_records "developer" [] = Except.error ConfigError.ConfigNotFound ∧
      runPipeline wit_records "developer" [] = Except.error ConfigError.ConfigNotFound) ∧
    (∃ k2, loadConfig wit_records "architect" [] =
        Except.error (ConfigError.PlaceholderMissing k2) ∧
      runPipeline wit_records "architect" [] =
        Except.error (ConfigError.PlaceholderMissing k2)) := by
  have h1 := (c5_config_loader_failures wit_records "developer" []).1 (by decide)
  have h2 := (c5_config_loader_failures wit_records "architect" []).2 wit_config rfl
    ⟨"shape_name", by decide, rfl⟩
  exact ⟨h1, h2⟩

theorem lookup_mem {β : Type} (m : List (String × β)) (k : String) (v : β)
    (h : m.lookup k = some v) : (k, v) ∈ m := by
  induction m with
  | nil => exact Option.noConfusion h
  | cons p ps ih =>
    obtain ⟨k0, v0⟩ := p
    cases hb : (k == k0) with
    | true =>
      have hkk : k = k0 := eq_of_beq hb
      have hv : v0 = v := by simpa [List.lookup, hb] using h
      subst hkk
      subst hv
      exact List.Mem.head ps
    | false =>
      have h2 : ps.lookup k = some v := by simpa [List.lookup, hb] using h
      exact List.Mem.tail _ (ih h2)

theorem resolveGo_nolb (m : List (String × String)) :
    ∀ (l : List Char), lbrace ∉ l → resolveGo m l none = Except.ok l := by
  intro l
  induction l with
  | nil => intro _; rfl
  | cons c cs ih =>
    intro h
    simp only [List.mem_cons, not_or] at h
    have hc : ¬ c = lbrace := fun e => h.1 e.symm
    simp [resolveGo, hc, ih h.2, Except.map]

theorem resolveGo_unterminated (m : List (String × String)) :
    ∀ (r acc : List Char), rbrace ∉ r →
      resolveGo m r (some acc) = Except.ok (lbrace :: (acc.reverse ++ r)) := by
  intro r
  induction r with
  | nil => intro acc _; simp [resolveGo]
  | cons c cs ih =>
    intro acc h
    simp only [List.mem_cons, not_or] at h
    have hc : ¬ c = rbrace := fun e => h.1 e.symm
    rw [show resolveGo m (c :: cs) (some acc) = resolveGo m cs (some (c :: acc)) from by
      simp [resolveGo, hc]]
    rw [ih (c :: acc) h.2]
    simp

theorem resolveGo_append_nolb (m : List (String × String)) :
    ∀ (a b : List Char), lbrace ∉ a →
      resolveGo m (a ++ b) none = (resolveGo m b none).map fun r => a ++ r := by
  intro a
  induction a with
  | nil =>
    intro b _
    cases e : resolveGo m b none <;> simp [e, Except.map]
  | cons c cs ih =>
    intro b h
    simp only [List.mem_cons, not_or] at h
    have hc : ¬ c = lbrace := fun e => h.1 e.symm
    rw [List.cons_append]
    cases e : resolveGo m b none with
    | error er => simp [resolveGo, hc, ih b h.2, e, Except.map]
    | ok r => simp [resolveGo, hc, ih b h.2, e, Except.map]

theorem resolveGo_fix_nil (m : List (String × String)) :
    (∀ t, resolveGo m ([] : List Char) none = Except.ok t →
      resolveGo m t none = Except.ok t) ∧
    (∀ acc t, rbrace ∉ acc → resolveGo m ([] : List Char) (some acc) = Except.ok t →
      resolveGo m t none = Except.ok t) := by
  constructor
  · intro t ht
    simp [resolveGo] at ht
    subst ht
    rfl
  · intro acc t hacc ht
    simp [resolveGo] at ht
    subst ht
    have h1 : rbrace ∉ acc.reverse := by simpa using hacc
    rw [show resolveGo m (lbrace :: acc.reverse) none =
        resolveGo m acc.reverse (some []) from by simp [resolveGo]]
    rw [resolveGo_unterminated m acc.reverse [] h1]
    simp

theorem resolveGo_fix (m : List (String × String))
    (hm : ∀ p ∈ m, lbrace ∉ p.2.data) :
    ∀ (n : Nat) (l : List Char), l.length ≤ n →
      (∀ t, resolveGo m l none = Except.ok t → resolveGo m t none = Except.ok t) ∧
      (∀ acc t, rbrace ∉ acc → resolveGo m l (some acc) = Except.ok t →
        resolveGo m t none = Except.ok t) := by
  intro n
  induction n with
  | zero =>
    intro l hl
    have h0 : l = [] := List.eq_nil_of_length_eq_zero (Nat.le_zero.mp hl)
    subst h0
    exact resolveGo_fix_nil m
  | succ n ih =>
    intro l hl
    cases l with
    | nil => exact resolveGo_fix_nil m
    | cons c cs =>
      have hcs : cs.length ≤ n := by
        simp only [List.length_cons] at hl
        omega
      obtain ⟨ihA, ihB⟩ := ih cs hcs
      constructor
      · intro t ht
        by_cases hc : c = lbrace
        · rw [show resolveGo m (c :: cs) none = resolveGo m cs (some []) from by
            simp [resolveGo, hc]] at ht
          exact ihB [] t (by simp) ht
        · rw [show resolveGo m (c :: cs) none =
              (resolveGo m cs none).map (fun r => c :: r) from by
            simp [resolveGo, hc]] at ht
          cases e : resolveGo m cs none with
          | error er =>
            rw [e] at ht
            simp [Except.map] at ht
          | ok r =>
            rw [e] at ht
            simp [Except.map] at ht
            subst ht
            have h1 := ihA r e
            simp [resolveGo, hc, h1, Except.map]
      · intro acc t hacc ht
        by_cases hc : c = rbrace
        · cases hl2 : m.lookup (String.mk acc.reverse) with
          | none =>
            rw [show resolveGo m (c :: cs) (some acc) =
                Except.error (ConfigError.PlaceholderMissing (String.mk acc.reverse)) from by
              simp [resolveGo, hc, hl2]] at ht
            exact Except.noConfusion ht
          | some v =>
            rw [show resolveGo m (c :: cs) (some acc) =
                (resolveGo m cs none).map (fun r => v.data ++ r) from by
              simp [resolveGo, hc, hl2]] at ht
            cases e : resolveGo m cs none with
            | error er =>
              rw [e] at ht
              simp [Except.map] at ht
            | ok r =>
              rw [e] at ht
              simp [Except.map] at ht
              subst ht
              have h1 := ihA r e
              have hv : lbrace ∉ v.data :=
                hm (String.mk acc.reverse, v) (lookup_mem m (String.mk acc.reverse) v hl2)
              rw [resolveGo_append_nolb m v.data r hv, h1]
              simp [Except.map]
        · rw [show resolveGo m (c :: cs) (some acc) = resolveGo m cs (some (c :: acc)) from by
            simp [resolveGo, hc]] at ht
          refine ihB (c :: acc) t ?_ ht
          simp only [List.mem_cons, not_or]
          exact ⟨fun e => hc e.symm, hacc⟩

theorem resolveTemplate_fix (m : List (String × String))
    (hm : ∀ p ∈ m, lbrace ∉ p.2.data) (s t : String)
    (h : resolveTemplate m s = Except.ok t) : resolveTemplate m t = Except.ok t := by
  unfold resolveTemplate at h
  cases e : resolveGo m s.data none with
  | error er =>
    rw [e] at h
    simp [Except.map] at h
  | ok L =>
    rw [e] at h
    simp [Except.map] at h
    subst h
    have h1 := (resolveGo_fix m hm s.data.length s.data (Nat.le_refl _)).1 L e
    show (resolveGo m (String.mk L).data none).map String.mk = Except.ok (String.mk L)
    rw [show (String.mk L).data = L from rfl, h1]
    rfl

theorem resolveConfig_fix (m : List (String × String))
    (hm : ∀ p ∈ m, lbrace ∉ p.2.data) (c c2 : AgentConfig)
    (h : resolveConfig m c = Except.ok c2) : resolveConfig m c2 = Except.ok c2 := by
  cases e1 : resolveTemplate m c.role with
  | error er => simp [resolveConfig, e1, Except.bind] at h
  | ok t1 =>
  cases e2 : resolveTemplate m c.goal with
  | error er => simp [resolveConfig, e1, e2, Except.bind] at h
  | ok t2 =>
  cases e3 : resolveTemplate m c.backstory with
  | error er => simp [resolveConfig, e1, e2, e3, Except.bind] at h
  | ok t3 =>
  cases e4 : resolveTemplate m c.task_description with
  | error er => simp [resolveConfig, e1, e2, e3, e4, Except.bind] at h
  | ok t4 =>
  cases e5 : resolveTemplate m c.expected_output with
  | error er => simp [resolveConfig, e1, e2, e3, e4, e5, Except.bind] at h
  | ok t5 =>
  cases e6 : resolveTemplate m c.output_file with
  | error er => simp [resolveConfig, e1, e2, e3, e4, e5, e6, Except.bind, Except.map] at h
  | ok t6 =>
    have hc2 : AgentConfig.mk t1 t2 t3 t4 t5 t6 = c2 := by
      simpa [resolveConfig, e1, e2, e3, e4, e5, e6, Except.bind, Except.map] using h
    subst hc2
    have f1 := resolveTemplate_fix m hm c.role t1 e1
    have f2 := resolveTemplate_fix m hm c.goal t2 e2
    have f3 := resolveTemplate_fix m hm c.backstory t3 e3
    have f4 := resolveTemplate_fix m hm c.task_description t4 e4
    have f5 := resolveTemplate_fix m hm c.expected_output t5 e5
    have f6 := resolveTemplate_fix m hm c.output_file t6 e6
    simp [resolveConfig, f1, f2, f3, f4, f5, f6, Except.bind, Except.map]

/-- C8 counterexample: resolution is not idempotent in general — with a
substitution mapping whose value itself contains placeholder syntax,
resolving the record twice differs from resolving it once. -/
theorem c8_resolution_not_idempotent :
    resolveConfig cex_values cex_config = Except.ok cex_config_once ∧
    resolveConfig cex_values cex_config_once = Except.ok cex_config_twice ∧
    cex_config_once ≠ cex_config_twice := by
  refine ⟨rfl, rfl, ?_⟩
  decide

/-- C8 amended: resolution is idempotent provided no substitution value
itself contains placeholder syntax (an opening brace): under that
condition, resolving a configuration record a second time with the same
mapping leaves the result of the first resolution unchanged. -/
theorem c8_resolution_idempotent_brace_free (m : List (String × String))
    (c : AgentConfig) (hm : ∀ p ∈ m, lbrace ∉ p.2.data) :
    (resolveConfig m c).bind (resolveConfig m) = resolveConfig m c := by
  cases h : resolveConfig m c with
  | error e => rfl
  | ok c2 =>
    show Except.bind (Except.ok c2) (resolveConfig m) = Except.ok c2
    simp only [Except.bind]
    exact resolveConfig_fix m hm c c2 h

/-- Witness for C8 (amended) at a concrete brace-free mapping. -/
theorem c8_resolution_idempotent_brace_free_witness :
    (resolveConfig wit_values wit_config).bind (resolveConfig wit_values) =
      resolveConfig wit_values wit_config :=
  c8_resolution_idempotent_brace_free wit_values wit_config (by decide)
